import Mathlib

/-!
# Verification of the WhatsApp contact identity resolution & synchronization engine

Shallow embedding of `src/custom/database.ts` and `src/custom/contacts.ts`:
strings are lists of characters, the SQL tables are lists of row structures,
and each exported function becomes a pure state-passing function.  Network
oracles (the live messaging collaborator) are passed in as explicit values.
-/

namespace WaContacts

/-- Strings of the embedded program are lists of characters. -/
abbrev Str := List Char

/-- Character list of a string literal. -/
def chars (s : String) : Str := s.data

/-- JavaScript truthiness of a nullable string (`null`, `undefined` and `""` are falsy). -/
def truthyS : Option Str → Bool
  | some s => !s.isEmpty
  | none => false

/-- The JS coercion `x || null` on a nullable string value. -/
def orNullStr (o : Option Str) : Option Str := if truthyS o then o else none

/-- The JS coercion `x || null` on a nullable boolean value. -/
def orNullBool : Option Bool → Option Bool
  | some true => some true
  | _ => none

/-- The JS coercion `x || null` on a nullable number value. -/
def orNullNat : Option Nat → Option Nat
  | some (n + 1) => some (n + 1)
  | _ => none

/-- JS `a || b` on nullable strings: `b` when `a` is falsy. -/
def orElseJs (a b : Option Str) : Option Str := if truthyS a then a else b

/-- `s.replace(/\D/g, '')`: keep only digit characters. -/
def digitsOnly (s : Str) : Str := s.filter Char.isDigit

/-- `s.replace(/@.*/, '')`: strip everything from the first `'@'` on. -/
def stripAt (s : Str) : Str := s.takeWhile (fun c => c ≠ '@')

/-- `!!x` on a nullable boolean column value (SQL NULL is falsy). -/
def toBoolJs (o : Option Bool) : Bool := o.getD false

/-- One element of `JSON.stringify` of an array of nullable strings. -/
def jsonElem : Option Str → Str
  | some s => '"' :: (s ++ ['"'])
  | none => chars "null"

/-- The comma-separated items of `JSON.stringify` of an array. -/
def jsonItems : List (Option Str) → Str
  | [] => []
  | [a] => jsonElem a
  | a :: b :: rest => jsonElem a ++ ',' :: jsonItems (b :: rest)

/-- `JSON.stringify` of an array of nullable strings, e.g. `["a",null]`. -/
def jsonArr (l : List (Option Str)) : Str := '[' :: (jsonItems l ++ [']'])

/-- SQL `text LIKE '%' || pat || '%'` for a wildcard-free pattern `pat`:
substring containment. -/
def likeContains (text pat : Str) : Bool := decide (pat <:+: text)

/-! ## Tenant tables and the auth gate (`database.ts` lines 47-124) -/

/-- A row of the `users` table (only the columns the engine reads). -/
structure UserRow where
  id : Str
  is_active : Bool
deriving DecidableEq

/-- A row of the `profiles` table.  The `wa_phones` column stores the JSON text
of an array of phone strings; the embedding keeps the array and serializes it
when the SQL `LIKE` runs, exactly as the stored text would be matched. -/
structure ProfileRow where
  user_id : Str
  phone : Str
  wa_phones : List Str
deriving DecidableEq

/-- The tenant database visible to the auth gate. -/
structure TenantDb where
  users : List UserRow
  profiles : List ProfileRow
deriving DecidableEq

/-- The ids produced by the auth query
`SELECT u.id FROM users u JOIN profiles p ON u.id = p.user_id WHERE u.is_active = 1
AND (p.phone = ? OR p.wa_phones LIKE '%"phone"%')`, in join order. -/
def authRows (tdb : TenantDb) (phone : Str) : List Str :=
  (tdb.users.filter (fun u => u.is_active)).flatMap fun u =>
    (tdb.profiles.filter fun p =>
        p.user_id = u.id ∧
          (p.phone = phone ∨
            likeContains (jsonArr (p.wa_phones.map some)) (jsonElem (some phone)))).map
      fun _ => u.id

/-- `isAuthenticatedUser` (`database.ts` 47-87): falsy session → false, else
normalize to digits and test whether the auth query returns any row. -/
def isAuthenticatedUser (tdb : TenantDb) (sessionPhone : Str) : Bool :=
  if sessionPhone.isEmpty then false
  else !(authRows tdb (digitsOnly sessionPhone)).isEmpty

/-- `getDbUser` (`database.ts` 92-124): same query, first returned id. -/
def getDbUser (tdb : TenantDb) (sessionPhone : Str) : Option Str :=
  if sessionPhone.isEmpty then none
  else (authRows tdb (digitsOnly sessionPhone)).head?

/-! ## Phone normalization (`contacts.ts`) -/

/-- `/^[6-9]/.test(s)`. -/
def firstIsMobile : Str → Bool
  | c :: _ => decide ('6' ≤ c ∧ c ≤ '9')
  | [] => false

/-- `phone.replace(/^55/, '')`: strip one leading `"55"`. -/
def stripPrefix55 (p : Str) : Str :=
  if (chars "55").isPrefixOf p then p.drop 2 else p

/-- `formatPhoneBR` (`contacts.ts` 46-63) on the underlying string: strip a
leading `55`, and for a 10/11-digit remainder insert the ninth digit when the
8-digit subscriber part starts with 6-9, else re-prefix `55`. -/
def formatPhoneBRs (p : Str) : Str :=
  if p.length < 10 then p
  else
    let cleanPhone := stripPrefix55 p
    if cleanPhone.length = 10 ∨ cleanPhone.length = 11 then
      let ddd := cleanPhone.take 2
      let number := cleanPhone.drop 2
      if number.length = 8 ∧ firstIsMobile number then
        chars "55" ++ ddd ++ '9' :: number
      else chars "55" ++ cleanPhone
    else p

/-- `formatPhoneBR` lifted to the nullable argument (`!phone` guard). -/
def formatPhoneBR : Option Str → Option Str
  | none => none
  | some p => some (formatPhoneBRs p)

/-- The phoneBR expression inlined (three times) in `checkNumber`
(`contacts.ts` 413-416, 430-433, 442-445): insert `'9'` after the fourth
character whenever the phone has 12 characters and starts with `"55"`. -/
def inlinePhoneBRs (p : Str) : Str :=
  if p.length = 12 ∧ (chars "55").isPrefixOf p then p.take 4 ++ '9' :: p.drop 4
  else p

/-- The inline rule on the nullable phone value (`phone && ... ? ... : phone`). -/
def inlinePhoneBR : Option Str → Option Str
  | none => none
  | some p => some (inlinePhoneBRs p)

/-! ## Contact tables (schema of `contacts`, `contacts_users`, `contact_messages`) -/

/-- A row of the `contacts` table.  `link` holds the parsed form of the JSON
text column; the stored text is `jsonArr link`. -/
structure ContactRow where
  id : Nat
  wid : Option Str
  name : Option Str
  phone : Option Str
  phoneBR : Option Str
  there_is : Bool
  link : List (Option Str)
  updated_at : Nat
deriving DecidableEq

/-- A row of the `contacts_users` overlay table, keyed by `(contact_id, user_id)`. -/
structure ContactUserRow where
  contact_id : Nat
  user_id : Str
  lid : Option Str
  cname : Option Str
  short_name : Option Str
  pushname : Option Str
  ctype : Option Str
  is_business : Option Bool
  is_enterprise : Option Bool
  verified_name : Option Str
  is_contact_sync_completed : Option Nat
  sync_to_addressbook : Option Bool
  assigned_at : Option Nat
deriving DecidableEq

/-- A row of the `contact_messages` table, keyed by `(contact_id, user_id)`. -/
structure ContactMessageRow where
  contact_id : Nat
  user_id : Str
  message_id : Str
  chat_id : Str
  body : Option Str
  mtype : Str
  timestamp_ms : Int
  ack : Int
  is_forwarded : Nat
  unread_count : Int
  has_unread : Nat
  exists_flag : Nat
  updated_at : Nat
deriving DecidableEq

/-- The contact store: three tables plus the autoincrement counter. -/
structure Db where
  contacts : List ContactRow
  contactsUsers : List ContactUserRow
  contactMessages : List ContactMessageRow
  nextId : Nat
deriving DecidableEq

/-- A fresh store; SQLite row ids start at 1. -/
def Db.empty : Db := ⟨[], [], [], 1⟩

/-! ## `saveContact` (`database.ts` 129-337) -/

/-- The `info.contact` payload (extra fields from `getPnLidEntry`). -/
structure ContactExtra where
  name : Option Str
  shortName : Option Str
  pushname : Option Str
  ctype : Option Str
  isBusiness : Option Bool
  isEnterprise : Option Bool
  verifiedName : Option Str
  isContactSyncCompleted : Option Nat
  syncToAddressbook : Option Bool
deriving DecidableEq

/-- The observation given to `saveContact`. -/
structure SaveData where
  there_is : Bool
  wid : Option Str
  lid : Option Str
  name : Option Str
  phone : Option Str
  phoneBR : Option Str
  link : List (Option Str)
  contact : Option ContactExtra
deriving DecidableEq

/-- `INSERT INTO contacts ... ON CONFLICT(wid) DO UPDATE ...` (`database.ts`
176-196): update the conflicting row (wid is UNIQUE, so at most one matches)
or insert a fresh row. -/
def upsertContactByWid (db : Db) (w : Str) (name phone phoneBR : Option Str)
    (ti : Bool) (link : List (Option Str)) (t : Nat) : Db :=
  if db.contacts.any (fun c => c.wid = some w) then
    { db with
      contacts := db.contacts.map fun c =>
        if c.wid = some w then
          { c with name, phone, phoneBR, there_is := ti, link, updated_at := t }
        else c }
  else
    { db with
      contacts := db.contacts ++
        [⟨db.nextId, some w, name, phone, phoneBR, ti, link, t⟩],
      nextId := db.nextId + 1 }

/-- `UPDATE contacts SET ... WHERE id = ?` (`database.ts` 226-238). -/
def updateContactById (db : Db) (cid : Nat) (name phone phoneBR : Option Str)
    (ti : Bool) (link : List (Option Str)) (t : Nat) : Db :=
  { db with
    contacts := db.contacts.map fun c =>
      if c.id = cid then
        { c with name, phone, phoneBR, there_is := ti, link, updated_at := t }
      else c }

/-- Lines 172-268 of `database.ts`: locate or create the canonical contact row
and produce the `contactId` used for the overlay write. -/
def resolveContactId (userId : Str) (db : Db) (info : SaveData) (t : Nat) :
    Db × Option Nat :=
  if truthyS info.wid then
    let w := info.wid.getD []
    let db1 := upsertContactByWid db w info.name info.phone info.phoneBR
      info.there_is info.link t
    (db1, (db1.contacts.find? (fun c => c.wid = some w)).map (·.id))
  else
    let found : Option Nat :=
      if truthyS info.lid then
        (db.contactsUsers.find?
          (fun r => r.user_id = userId ∧ r.lid = info.lid)).map (·.contact_id)
      else none
    match found with
    | some cid =>
      (updateContactById db cid (orNullStr info.name) (orNullStr info.phone)
        (orNullStr info.phoneBR) info.there_is info.link t, some cid)
    | none =>
      ({ db with
          contacts := db.contacts ++
            [⟨db.nextId, info.wid, info.name, info.phone, info.phoneBR,
              info.there_is, info.link, t⟩],
          nextId := db.nextId + 1 },
        some db.nextId)

/-- The full-field `contacts_users` upsert (`database.ts` 295-316). -/
def cuUpsertBig (db : Db) (cid : Nat) (userId : Str) (lidArg : Option Str)
    (c : ContactExtra) (t : Nat) : Db :=
  let upd : ContactUserRow → ContactUserRow := fun r =>
    { r with
      lid := lidArg
      cname := orNullStr c.name
      short_name := orNullStr c.shortName
      pushname := orNullStr c.pushname
      ctype := orNullStr c.ctype
      is_business := orNullBool c.isBusiness
      is_enterprise := orNullBool c.isEnterprise
      verified_name := orNullStr c.verifiedName
      is_contact_sync_completed := orNullNat c.isContactSyncCompleted
      sync_to_addressbook := orNullBool c.syncToAddressbook
      assigned_at := some t }
  if db.contactsUsers.any (fun r => r.contact_id = cid ∧ r.user_id = userId) then
    { db with
      contactsUsers := db.contactsUsers.map fun r =>
        if r.contact_id = cid ∧ r.user_id = userId then upd r else r }
  else
    { db with
      contactsUsers := db.contactsUsers ++
        [upd ⟨cid, userId, none, none, none, none, none, none, none, none,
          none, none, none⟩] }

/-- The three-column `contacts_users` upsert (`database.ts` 320-326): on
conflict only `lid` is rewritten; an insert leaves the other columns at their
defaults (NULL). -/
def cuUpsertSmall (db : Db) (cid : Nat) (userId : Str) (lidArg : Option Str) : Db :=
  if db.contactsUsers.any (fun r => r.contact_id = cid ∧ r.user_id = userId) then
    { db with
      contactsUsers := db.contactsUsers.map fun r =>
        if r.contact_id = cid ∧ r.user_id = userId then { r with lid := lidArg }
        else r }
  else
    { db with
      contactsUsers := db.contactsUsers ++
        [⟨cid, userId, lidArg, none, none, none, none, none, none, none, none,
          none, none⟩] }

/-- The body of `saveContact` once the calling user is known
(`database.ts` 162-337). -/
def saveContactAuth (userId : Str) (db : Db) (d : SaveData) (t : Nat) :
    Db × Bool :=
  let step := resolveContactId userId db d t
  match step.2, d.contact with
  | some cid, some c => (cuUpsertBig step.1 cid userId (orNullStr d.lid) c t, true)
  | some cid, none => (cuUpsertSmall step.1 cid userId (orNullStr d.lid), true)
  | none, _ => (step.1, true)

/-- `saveContact` (`database.ts` 129-337): gate through `getDbUser`, then
resolve the identity and upsert the overlay. -/
def saveContact (tdb : TenantDb) (me : Str) (db : Db) (d : SaveData) (t : Nat) :
    Db × Bool :=
  match getDbUser tdb me with
  | none => (db, false)
  | some u => saveContactAuth u db d t

/-! ## `saveContactMessage` (`database.ts` 414-491) -/

/-- The message observation handed to the message-saving paths. -/
structure MessageData where
  message_id : Str
  chat_id : Str
  body : Str
  mtype : Str
  timestamp_ms : Int
  ack : Int
  is_forwarded : Bool
  unread_count : Int
  has_unread : Bool
  exists_flag : Bool
deriving DecidableEq

/-- The `body` argument of both message upserts
(`database.ts` 475 and 640): `type === 'document' ? null : body`. -/
def msgBodyArg (m : MessageData) : Option Str :=
  if m.mtype = chars "document" then none else some m.body

/-- `INSERT INTO contact_messages ... ON CONFLICT(contact_id, user_id) DO
UPDATE ...` (`database.ts` 452-484). -/
def upsertContactMessage (db : Db) (cid : Nat) (userId : Str) (m : MessageData)
    (t : Nat) : Db :=
  let row : ContactMessageRow :=
    ⟨cid, userId, m.message_id, m.chat_id, msgBodyArg m, m.mtype,
      m.timestamp_ms, m.ack, if m.is_forwarded then 1 else 0, m.unread_count,
      if m.has_unread then 1 else 0, if m.exists_flag then 1 else 0, t⟩
  if db.contactMessages.any (fun r => r.contact_id = cid ∧ r.user_id = userId) then
    { db with
      contactMessages := db.contactMessages.map fun r =>
        if r.contact_id = cid ∧ r.user_id = userId then row else r }
  else
    { db with contactMessages := db.contactMessages ++ [row] }

/-- Body of `saveContactMessage` once the user is known: look the contact up
by wid, fail when absent, else upsert the snapshot. -/
def saveContactMessageAuth (userId : Str) (db : Db) (widStr : Str)
    (m : MessageData) (t : Nat) : Db × Bool :=
  match db.contacts.find? (fun c => c.wid = some widStr) with
  | none => (db, false)
  | some c => (upsertContactMessage db c.id userId m t, true)

/-- `saveContactMessage` (`database.ts` 414-491). -/
def saveContactMessage (tdb : TenantDb) (me : Str) (db : Db) (widStr : Str)
    (m : MessageData) (t : Nat) : Db × Bool :=
  match getDbUser tdb me with
  | none => (db, false)
  | some u => saveContactMessageAuth u db widStr m t

/-! ## `saveContactsBatch` (`database.ts` 529-667) -/

/-- The `contact` part of a batched item. -/
structure BatchContact where
  wid : Option Str
  lid : Option Str
  name : Option Str
  phone : Option Str
  phoneBR : Option Str
  there_is : Bool
  link : List (Option Str)
deriving DecidableEq

/-- The `contact_user` part of a batched item: a per-user lid plus the
overlay payload. -/
structure BatchCu where
  lid : Option Str
  extra : ContactExtra
deriving DecidableEq

/-- One element of the list given to `saveContactsBatch` (also the shape
produced by `getAllContacts` and consumed by `saveFullContact`). -/
structure BatchItem where
  contact : BatchContact
  contact_user : Option BatchCu
  lastMessage : Option MessageData
deriving DecidableEq

/-- `contactData.contact_user?.lid || info.lid` (`database.ts` 556). -/
def effLid (it : BatchItem) : Option Str :=
  match it.contact_user with
  | some cu => if truthyS cu.lid then cu.lid else it.contact.lid
  | none => it.contact.lid

/-- How many statements lines 558-651 push for one item: zero when the item
is skipped (`!wid && !lid`) or carries no truthy wid, else one contact upsert
plus the optional overlay and message upserts. -/
def itemStmtCount (it : BatchItem) : Nat :=
  if ¬ truthyS it.contact.wid ∧ ¬ truthyS (effLid it) then 0
  else if truthyS it.contact.wid then
    1 + (if it.contact_user.isSome then 1 else 0) +
      (if it.lastMessage.isSome then 1 else 0)
  else 0

/-- Effect of one item's statements on the store (the wid upsert, then the
overlay upsert keyed through `SELECT id FROM contacts WHERE wid = ?`, then
the message upsert through the same subquery). -/
def applyBatchItem (userId : Str) (db : Db) (it : BatchItem) (t : Nat) : Db :=
  if truthyS it.contact.wid then
    let w := it.contact.wid.getD []
    let db1 := upsertContactByWid db w it.contact.name it.contact.phone
      it.contact.phoneBR it.contact.there_is it.contact.link t
    let db2 :=
      match it.contact_user with
      | some cu =>
        match db1.contacts.find? (fun c => c.wid = some w) with
        | some c => cuUpsertBig db1 c.id userId (orNullStr (effLid it)) cu.extra t
        | none => db1
      | none => db1
    match it.lastMessage with
    | some m =>
      match db2.contacts.find? (fun c => c.wid = some w) with
      | some c => upsertContactMessage db2 c.id userId m t
      | none => db2
    | none => db2
  else db

/-- Fuelled chunking helper: the fuel starts at the list length and always
dominates it, so the fuel-exhausted branch is unreachable. -/
def chunksGo {α : Type} : Nat → List α → List (List α)
  | _, [] => []
  | 0, _ :: _ => []
  | fuel + 1, x :: xs => ((x :: xs).take 20) :: chunksGo fuel ((x :: xs).drop 20)

/-- `contacts.slice(i, i + BATCH_SIZE)` chunking with `BATCH_SIZE = 20`. -/
def chunks20 {α : Type} (l : List α) : List (List α) := chunksGo l.length l

/-- The result object of `saveContactsBatch`. -/
structure BatchResult where
  success : Bool
  saved : Nat
  failed : Nat
deriving DecidableEq

/-- One loop iteration of `saveContactsBatch` (`database.ts` 546-664):
build the chunk's statements, submit them when there are any, and add the
whole `chunk.length` to the saved counter on success or to the failed
counter on a batch error. -/
def batchChunkStep (userId : Str) (ok : List BatchItem → Bool) (t : Nat)
    (acc : Db × Nat × Nat) (chunk : List BatchItem) : Db × Nat × Nat :=
  let n := (chunk.map itemStmtCount).sum
  if n = 0 then acc
  else if ok chunk then
    (chunk.foldl (fun d it => applyBatchItem userId d it t) acc.1,
      acc.2.1 + chunk.length, acc.2.2)
  else (acc.1, acc.2.1, acc.2.2 + chunk.length)

/-- Body of `saveContactsBatch` once the user is known (`database.ts`
542-666): chunk the input by 20 and run the loop.  The chunk oracle `ok`
stands for whether `client.batch` succeeds on that chunk. -/
def saveContactsBatchAuth (userId : Str) (db : Db) (items : List BatchItem)
    (ok : List BatchItem → Bool) (t : Nat) : Db × Nat × Nat :=
  (chunks20 items).foldl (batchChunkStep userId ok t) (db, 0, 0)

/-- `saveContactsBatch` (`database.ts` 529-667). -/
def saveContactsBatch (tdb : TenantDb) (me : Str) (db : Db)
    (items : List BatchItem) (ok : List BatchItem → Bool) (t : Nat) :
    Db × BatchResult :=
  match getDbUser tdb me with
  | none => (db, ⟨false, 0, items.length⟩)
  | some u =>
    let r := saveContactsBatchAuth u db items ok t
    (r.1, ⟨true, r.2.1, r.2.2⟩)

/-! ## `getContactByLink` (`database.ts` 342-409) and `checkNumber`
(`contacts.ts` 393-488) -/

/-- The `data` object of a `checkNumber` / cache result. -/
structure CheckData where
  wid : Option Str
  lid : Option Str
  name : Option Str
  phone : Option Str
  phoneBR : Option Str
  there_is : Bool
  link : List (Option Str)
  contact : Option ContactExtra
deriving DecidableEq

/-- The `{ there_is, data }` record returned on a cache hit. -/
structure CheckRecord where
  there_is : Bool
  data : CheckData
deriving DecidableEq

/-- The row selected by
`SELECT ... FROM contacts c LEFT JOIN contacts_users cu ... WHERE c.link LIKE
'%"id"%' LIMIT 1`: first contact whose serialized link text contains the
quoted identifier. -/
def findCachedRow (db : Db) (contactId : Str) : Option ContactRow :=
  db.contacts.find? fun c =>
    likeContains (jsonArr c.link) (jsonElem (some contactId))

/-- Lines 348-408 of `database.ts` once the user is known: build the cached
record (note the hard-coded `there_is: true` at both levels). -/
def getContactByLinkCore (db : Db) (userId : Str) (contactId : Str) :
    Option CheckRecord :=
  (findCachedRow db contactId).map fun c =>
    let cu := db.contactsUsers.find? fun r =>
      r.contact_id = c.id ∧ r.user_id = userId
    let customName := orElseJs (orNullStr (cu.bind (·.cname))) (orNullStr c.name)
    { there_is := true
      data :=
        { wid := orNullStr c.wid
          lid := orNullStr (cu.bind (·.lid))
          name := customName
          phone := orNullStr c.phone
          phoneBR := orNullStr c.phoneBR
          there_is := true
          link := c.link
          contact := some
            { name := customName
              shortName := orNullStr (cu.bind (·.short_name))
              pushname := orNullStr (cu.bind (·.pushname))
              ctype := none
              isBusiness := some (toBoolJs (cu.bind (·.is_business)))
              isEnterprise := some (toBoolJs (cu.bind (·.is_enterprise)))
              verifiedName := orNullStr (cu.bind (·.verified_name))
              isContactSyncCompleted :=
                orNullNat (cu.bind (·.is_contact_sync_completed))
              syncToAddressbook :=
                some (toBoolJs (cu.bind (·.sync_to_addressbook))) } } }

/-- `getContactByLink` (`database.ts` 342-409). -/
def getContactByLink (tdb : TenantDb) (me : Str) (db : Db) (contactId : Str) :
    Option CheckRecord :=
  match getDbUser tdb me with
  | none => none
  | some u => getContactByLinkCore db u contactId

/-- The `result.wid` / `result.lid` payload of `contact.queryExists`. -/
structure QueryExistsResult where
  widS : Str
  widUser : Option Str
  lidS : Option Str
  qname : Option Str
deriving DecidableEq

/-- The resolved phone-number entry of `contact.getPnLidEntry`. -/
structure PnPhone where
  serialized : Str
  pid : Option Str
deriving DecidableEq

/-- The payload of `contact.getPnLidEntry`. -/
structure PnEntry where
  phoneNumber : Option PnPhone
  contact : Option ContactExtra
deriving DecidableEq

/-- The outcome of `checkNumber`: the unauthorized shape
`{ there_is: false, data: { unauthorized: true } }` or a regular record. -/
inductive CheckOutcome where
  | unauthorized : CheckOutcome
  | result (there_is : Bool) (data : CheckData) : CheckOutcome
deriving DecidableEq

/-- Which live-collaborator queries a `checkNumber` call issued. -/
structure LiveCalls where
  queryExistsCalled : Bool
  getPnLidEntryCalled : Bool
deriving DecidableEq

/-- The live path of `checkNumber` (`contacts.ts` 406-487), taken on a cache
miss: `qe` is the (already awaited) `queryExists` answer and `pnl` the
`getPnLidEntry` oracle. -/
def checkNumberLive (qe : Option QueryExistsResult) (pnl : Str → PnEntry)
    (contactId : Str) : CheckOutcome × LiveCalls :=
  match qe with
  | some q =>
    let wid0 : Option Str := orNullStr (some q.widS)
    let lid0 : Option Str := orNullStr q.lidS
    let name0 : Option Str := orNullStr q.qname
    let phone0 : Option Str := orNullStr q.widUser
    let phoneBR0 := inlinePhoneBR phone0
    let pnlCalled := truthyS wid0 || truthyS lid0
    let extraInfo : PnEntry :=
      if truthyS wid0 then pnl (wid0.getD [])
      else if truthyS lid0 then pnl (lid0.getD [])
      else ⟨none, none⟩
    let step2 : Option Str × Option Str × Option Str :=
      if ¬ truthyS wid0 then
        match extraInfo.phoneNumber with
        | some pn =>
          (some pn.serialized, pn.pid, inlinePhoneBR pn.pid)
        | none => (wid0, phone0, phoneBR0)
      else (wid0, phone0, phoneBR0)
    let wid1 := step2.1
    let phone1 := step2.2.1
    let phoneBR1 := step2.2.2
    let step3 : Option Str × Option Str :=
      if ¬ truthyS wid1 ∧ truthyS lid0 ∧ ¬ truthyS phone1 then
        let number := stripAt contactId
        (some number, inlinePhoneBR (some number))
      else (phone1, phoneBR1)
    let phone2 := step3.1
    let phoneBR2 := step3.2
    (.result true
      { wid := wid1, lid := lid0, name := name0, phone := phone2
        phoneBR := phoneBR2, there_is := true
        link := [wid1, phone2, phoneBR2].filter (·.isSome)
        contact := extraInfo.contact },
      ⟨true, pnlCalled⟩)
  | none =>
    let number := stripAt contactId
    let phone :=
      if (chars "55").isPrefixOf number ∧ number.length = 13 then
        number.take 4 ++ number.drop 5
      else number
    let phoneBR :=
      if (chars "55").isPrefixOf number ∧ number.length = 12 then
        number.take 4 ++ '9' :: number.drop 4
      else number
    (.result false
      { wid := none, lid := none, name := none, phone := some phone
        phoneBR := some phoneBR, there_is := false
        link := [none, some phone, none, some phoneBR].filter (·.isSome)
        contact := none },
      ⟨true, false⟩)

/-- `checkNumber` (`contacts.ts` 393-488): auth gate, then the read-through
cache, then the live path only on a miss. -/
def checkNumber (tdb : TenantDb) (me : Str) (db : Db)
    (qe : Option QueryExistsResult) (pnl : Str → PnEntry) (contactId : Str) :
    CheckOutcome × LiveCalls :=
  if isAuthenticatedUser tdb me = false then (.unauthorized, ⟨false, false⟩)
  else
    match getContactByLink tdb me db contactId with
    | some r => (.result r.there_is r.data, ⟨false, false⟩)
    | none => checkNumberLive qe pnl contactId

/-! ## `saveFullContact` and `syncAllContacts` (`database.ts` 496-524,
`contacts.ts` 493-544) -/

/-- `saveFullContact`'s repacking of a fetched contact into the `saveContact`
observation (`database.ts` 499-507): the `contact_user` payload becomes the
`contact` property. -/
def toSaveData (it : BatchItem) : SaveData :=
  { there_is := it.contact.there_is
    wid := it.contact.wid
    lid := it.contact.lid
    name := it.contact.name
    phone := it.contact.phone
    phoneBR := it.contact.phoneBR
    link := it.contact.link
    contact := it.contact_user.map (·.extra) }

/-- `saveFullContact` (`database.ts` 496-524). -/
def saveFullContact (tdb : TenantDb) (me : Str) (db : Db) (it : BatchItem)
    (t : Nat) : Db × Bool :=
  let r := saveContact tdb me db (toSaveData it) t
  if !r.2 then (r.1, false)
  else
    match it.lastMessage with
    | some m =>
      if truthyS it.contact.wid then
        ((saveContactMessage tdb me r.1 (it.contact.wid.getD []) m t).1, true)
      else (r.1, true)
    | none => (r.1, true)

/-- The outcome of `syncAllContacts`: the structured failure object
`{ success: false, error }` or the summary `{ success: true, total, saved,
failed }`. -/
inductive SyncOutcome where
  | failure (err : Str) : SyncOutcome
  | summary (total saved failed : Nat) : SyncOutcome
deriving DecidableEq

/-- `syncAllContacts` (`contacts.ts` 493-544): gate, then save the fetched
contacts (passed in as the `getAllContacts` oracle result) one by one. -/
def syncAllContacts (tdb : TenantDb) (me : Str) (db : Db)
    (items : List BatchItem) (t : Nat) : SyncOutcome × Db :=
  if isAuthenticatedUser tdb me = false then
    (.failure (chars "Unauthorized"), db)
  else
    let r := items.foldl
      (fun (acc : Db × Nat × Nat) it =>
        let s := saveFullContact tdb me acc.1 it t
        if s.2 then (s.1, acc.2.1 + 1, acc.2.2) else (s.1, acc.2.1, acc.2.2 + 1))
      (db, 0, 0)
    (.summary items.length r.2.1 r.2.2, r.1)

/-- Forget every timestamp column (`updated_at` / `assigned_at`), keeping all
data columns: two stores agree under `eraseTimes` exactly when they differ at
most in timestamps. -/
def eraseTimes (db : Db) : Db :=
  { contacts := db.contacts.map fun c => { c with updated_at := 0 }
    contactsUsers := db.contactsUsers.map fun r => { r with assigned_at := none }
    contactMessages := db.contactMessages.map fun r => { r with updated_at := 0 }
    nextId := db.nextId }

/-! ## Helper lemmas -/

lemma getDbUser_isSome_eq (tdb : TenantDb) (me : Str) :
    (getDbUser tdb me).isSome = isAuthenticatedUser tdb me := by
  unfold getDbUser isAuthenticatedUser
  by_cases h : me.isEmpty
  · simp [h]
  · simp only [h, if_false, Bool.false_eq_true]
    cases authRows tdb (digitsOnly me) <;> simp

lemma itemStmtCount_eq_zero (it : BatchItem) :
    itemStmtCount it = 0 ↔ truthyS it.contact.wid = false := by
  unfold itemStmtCount
  rcases h : truthyS it.contact.wid <;> simp [h]

lemma chunkStmts_eq_zero (chunk : List BatchItem) :
    (chunk.map itemStmtCount).sum = 0 ↔
      chunk.any (fun it => truthyS it.contact.wid) = false := by
  simp [List.sum_eq_zero_iff, itemStmtCount_eq_zero]

lemma batchFold_counts (u : Str) (ok : List BatchItem → Bool) (t : Nat)
    (cs : List (List BatchItem)) :
    ∀ acc : Db × Nat × Nat,
      (cs.foldl (batchChunkStep u ok t) acc).2.1 +
          (cs.foldl (batchChunkStep u ok t) acc).2.2 =
        acc.2.1 + acc.2.2 +
          ((cs.filter fun c => c.any fun it => truthyS it.contact.wid).map
            List.length).sum := by
  induction cs with
  | nil => intro acc; simp
  | cons c cs ih =>
    intro acc
    rcases hz : (c.map itemStmtCount).sum with _ | n
    · have hw : c.any (fun it => truthyS it.contact.wid) = false :=
        (chunkStmts_eq_zero c).mp hz
      simp [List.foldl_cons, batchChunkStep, hz, hw, ih]
    · have hw : c.any (fun it => truthyS it.contact.wid) = true := by
        rcases h : c.any (fun it => truthyS it.contact.wid) with _ | _
        · rw [(chunkStmts_eq_zero c).mpr h] at hz; cases hz
        · rfl
      rcases hok : ok c with _ | _ <;>
        simp [List.foldl_cons, batchChunkStep, hz, hw, hok, ih] <;> omega

lemma upsertContactMessage_mem (db : Db) (cid : Nat) (u : Str)
    (m : MessageData) (t : Nat) :
    ∃ r ∈ (upsertContactMessage db cid u m t).contactMessages,
      r.contact_id = cid ∧ r.user_id = u ∧ r.body = msgBodyArg m := by
  unfold upsertContactMessage
  refine ⟨⟨cid, u, m.message_id, m.chat_id, msgBodyArg m, m.mtype,
    m.timestamp_ms, m.ack, if m.is_forwarded then 1 else 0, m.unread_count,
    if m.has_unread then 1 else 0, if m.exists_flag then 1 else 0, t⟩,
    ?_, rfl, rfl, rfl⟩
  by_cases h : db.contactMessages.any
      (fun r => r.contact_id = cid ∧ r.user_id = u) = true
  · simp only [h, if_true]
    obtain ⟨r0, hr0, hk⟩ : ∃ r0 ∈ db.contactMessages,
        r0.contact_id = cid ∧ r0.user_id = u := by simpa using h
    exact List.mem_map.mpr ⟨r0, hr0, by simp [hk.1, hk.2]⟩
  · simp only [h, if_false, Bool.false_eq_true]
    simp

lemma upsertContactByWid_mem (db : Db) (w : Str)
    (name phone phoneBR : Option Str) (ti : Bool) (link : List (Option Str))
    (t : Nat) :
    ∃ c ∈ (upsertContactByWid db w name phone phoneBR ti link t).contacts,
      c.wid = some w := by
  unfold upsertContactByWid
  by_cases h : db.contacts.any (fun c => c.wid = some w) = true
  · simp only [h, if_true]
    obtain ⟨c0, hc0, hk⟩ : ∃ c0 ∈ db.contacts, c0.wid = some w := by simpa using h
    refine ⟨_, List.mem_map.mpr ⟨c0, hc0, rfl⟩, ?_⟩
    simp [hk]
  · simp only [h, if_false, Bool.false_eq_true]
    exact ⟨⟨db.nextId, some w, name, phone, phoneBR, ti, link, t⟩, by simp, rfl⟩

lemma cuUpsertBig_contacts (db : Db) (cid : Nat) (u : Str) (lidArg : Option Str)
    (c : ContactExtra) (t : Nat) :
    (cuUpsertBig db cid u lidArg c t).contacts = db.contacts := by
  unfold cuUpsertBig
  split <;> rfl

lemma find?_map_pred {α : Type} (f : α → α) (p : α → Bool) (l : List α)
    (h : ∀ x, p (f x) = p x) : (l.map f).find? p = (l.find? p).map f := by
  induction l with
  | nil => rfl
  | cons x xs ih =>
    cases hp : p x
    · rw [List.map_cons, List.find?_cons_of_neg _ (by simp [h x, hp]),
        List.find?_cons_of_neg _ (by simp [hp]), ih]
    · rw [List.map_cons, List.find?_cons_of_pos _ (by simp [h x, hp]),
        List.find?_cons_of_pos _ hp, Option.map_some']

lemma find?_append_not {α : Type} (p : α → Bool) (l₁ l₂ : List α)
    (h : ∀ x ∈ l₁, p x = false) : (l₁ ++ l₂).find? p = l₂.find? p := by
  induction l₁ with
  | nil => rfl
  | cons x xs ih =>
    rw [List.cons_append, List.find?_cons_of_neg _ (by simp [h x (by simp)])]
    exact ih (fun y hy => h y (by simp [hy]))

lemma upsertContactByWid_spec (db : Db) (w : Str)
    (name phone phoneBR : Option Str) (ti : Bool) (link : List (Option Str))
    (t : Nat) :
    ∃ c', (upsertContactByWid db w name phone phoneBR ti link
        t).contacts.find? (fun c => c.wid = some w) = some c' ∧
      c'.wid = some w ∧ c'.name = name ∧ c'.phone = phone ∧
      c'.phoneBR = phoneBR ∧ c'.there_is = ti ∧ c'.link = link := by
  unfold upsertContactByWid
  by_cases h : db.contacts.any (fun c => c.wid = some w) = true
  · simp only [h, if_true]
    have hfs : (db.contacts.find? (fun c => c.wid = some w)).isSome := by
      rw [List.find?_isSome]
      simpa using h
    obtain ⟨c0, hc0⟩ := Option.isSome_iff_exists.mp hfs
    have hp0 : c0.wid = some w := by
      have := List.find?_some hc0
      simpa using this
    rw [find?_map_pred _ _ _
      (fun x => by by_cases hx : x.wid = some w <;> simp [hx]), hc0,
      Option.map_some']
    refine ⟨_, rfl, ?_, ?_, ?_, ?_, ?_, ?_⟩ <;> simp [hp0]
  · simp only [h, if_false, Bool.false_eq_true]
    have h' : ∀ c ∈ db.contacts, ¬ c.wid = some w := by simpa using h
    have hall : ∀ c ∈ db.contacts,
        (fun c => decide (c.wid = some w)) c = false := by
      intro c hc
      simp [h' c hc]
    rw [find?_append_not _ _ _ hall]
    exact ⟨_, by rw [List.find?_cons_of_pos _ (by simp)], rfl, rfl, rfl, rfl,
      rfl, rfl⟩

lemma cuUpsertBig_mem (db : Db) (cid : Nat) (u : Str) (lidArg : Option Str)
    (c : ContactExtra) (t : Nat) :
    ∃ r ∈ (cuUpsertBig db cid u lidArg c t).contactsUsers,
      r.contact_id = cid ∧ r.user_id = u ∧ r.lid = lidArg := by
  unfold cuUpsertBig
  by_cases h : db.contactsUsers.any
      (fun r => r.contact_id = cid ∧ r.user_id = u) = true
  · simp only [h, if_true]
    obtain ⟨r0, hr0, hk⟩ : ∃ r0 ∈ db.contactsUsers,
        r0.contact_id = cid ∧ r0.user_id = u := by simpa using h
    refine ⟨_, List.mem_map.mpr ⟨r0, hr0, rfl⟩, ?_⟩
    simp [hk.1, hk.2]
  · simp only [h, if_false, Bool.false_eq_true]
    refine ⟨⟨cid, u, lidArg, orNullStr c.name, orNullStr c.shortName,
      orNullStr c.pushname, orNullStr c.ctype, orNullBool c.isBusiness,
      orNullBool c.isEnterprise, orNullStr c.verifiedName,
      orNullNat c.isContactSyncCompleted, orNullBool c.syncToAddressbook,
      some t⟩, by simp, rfl, rfl, rfl⟩

lemma cuUpsertSmall_mem (db : Db) (cid : Nat) (u : Str) (lidArg : Option Str) :
    ∃ r ∈ (cuUpsertSmall db cid u lidArg).contactsUsers,
      r.contact_id = cid ∧ r.user_id = u ∧ r.lid = lidArg := by
  unfold cuUpsertSmall
  by_cases h : db.contactsUsers.any
      (fun r => r.contact_id = cid ∧ r.user_id = u) = true
  · simp only [h, if_true]
    obtain ⟨r0, hr0, hk⟩ : ∃ r0 ∈ db.contactsUsers,
        r0.contact_id = cid ∧ r0.user_id = u := by simpa using h
    refine ⟨_, List.mem_map.mpr ⟨r0, hr0, rfl⟩, ?_⟩
    simp [hk.1, hk.2]
  · simp only [h, if_false, Bool.false_eq_true]
    refine ⟨⟨cid, u, lidArg, none, none, none, none, none, none, none, none,
      none, none⟩, by simp, rfl, rfl, rfl⟩

lemma orNullStr_stable (o : Option Str) (h : o ≠ some []) : orNullStr o = o := by
  rcases o with _ | ⟨_ | ⟨c, s⟩⟩
  · rfl
  · exact absurd rfl h
  · rfl

lemma quoted_prefix_eq : ∀ (p a : Str), '"' ∉ p → '"' ∉ a → ∀ (t r : Str),
    p ++ '"' :: t = a ++ '"' :: r → p = a ∧ t = r := by
  intro p
  induction p with
  | nil =>
    intro a hp ha t r h
    rcases a with _ | ⟨b, a'⟩
    · simpa using h
    · simp only [List.nil_append, List.cons_append, List.cons.injEq] at h
      have hmem : '"' ∈ b :: a' := by
        rw [h.1]
        exact List.mem_cons_self b a'
      exact absurd hmem ha
  | cons c p' ih =>
    intro a hp ha t r h
    rcases a with _ | ⟨b, a'⟩
    · simp only [List.cons_append, List.nil_append, List.cons.injEq] at h
      have hmem : '"' ∈ c :: p' := by
        rw [← h.1]
        exact List.mem_cons_self c p'
      exact absurd hmem hp
    · simp only [List.cons_append, List.cons.injEq] at h
      obtain ⟨hcb, h2⟩ := h
      have hih := ih a' (fun hh => hp (List.mem_cons_of_mem c hh))
        (fun hh => ha (List.mem_cons_of_mem b hh)) t r h2
      exact ⟨by rw [hcb, hih.1], hih.2⟩

lemma skipBlock : ∀ (b s xs r : Str), '"' ∉ b →
    s ++ '"' :: xs = b ++ r → ∃ s', s = b ++ s' ∧ s' ++ '"' :: xs = r := by
  intro b
  induction b with
  | nil =>
    intro s xs r _ h
    exact ⟨s, rfl, by simpa using h⟩
  | cons c b' ih =>
    intro s xs r hb h
    rcases s with _ | ⟨d, s'⟩
    · simp only [List.nil_append, List.cons_append, List.cons.injEq] at h
      have hmem : '"' ∈ c :: b' := by
        rw [h.1]
        exact List.mem_cons_self c b'
      exact absurd hmem hb
    · simp only [List.cons_append, List.cons.injEq] at h
      obtain ⟨hdc, h2⟩ := h
      obtain ⟨s'', hs1, hs2⟩ := ih s' xs r
        (fun hh => hb (List.mem_cons_of_mem c hh)) h2
      exact ⟨s'', by simp [hdc, hs1], hs2⟩

lemma mem_of_quoted_sub_items : ∀ (l : List (Option Str)) (p s t : Str),
    '"' ∉ p → ',' ∉ p → (∀ e : Str, some e ∈ l → '"' ∉ e) →
    s ++ '"' :: (p ++ '"' :: t) = jsonItems l → some p ∈ l := by
  intro l
  induction l with
  | nil =>
    intro p s t _ _ _ h
    simp [jsonItems] at h
  | cons a rest ih =>
    intro p s t hp hpc hl h
    rcases rest with _ | ⟨b, rest'⟩
    · -- single trailing element
      rcases a with _ | a'
      · -- null element
        rw [show jsonItems [none] = chars "null" from rfl] at h
        obtain ⟨s'', _, hs2⟩ := skipBlock (chars "null") s _ [] (by decide)
          (by simpa using h)
        simp at hs2
      · -- quoted element
        have ha' : '"' ∉ a' := hl a' (by simp)
        rw [show jsonItems [some a'] = '"' :: (a' ++ '"' :: []) from by
          simp [jsonItems, jsonElem]] at h
        rcases s with _ | ⟨c, s'⟩
        · simp only [List.nil_append, List.cons.injEq] at h
          obtain ⟨hpa, -⟩ := quoted_prefix_eq p a' hp ha' _ _ h.2
          simp [hpa]
        · simp only [List.cons_append, List.cons.injEq] at h
          obtain ⟨s'', -, hs2⟩ := skipBlock a' s' _ _ ha' h.2
          rcases s'' with _ | ⟨d, s'''⟩
          · simp only [List.nil_append, List.cons.injEq] at hs2
            simp at hs2
          · simp only [List.cons_append, List.cons.injEq] at hs2
            simp at hs2
    · -- at least two elements
      have hitems : jsonItems (a :: b :: rest') =
          jsonElem a ++ ',' :: jsonItems (b :: rest') := rfl
      rcases a with _ | a'
      · rw [hitems, show jsonElem none = chars "null" from rfl] at h
        obtain ⟨s'', -, hs2⟩ := skipBlock (chars "null") s _ _ (by decide) h
        rcases s'' with _ | ⟨d, s'''⟩
        · simp only [List.nil_append, List.cons.injEq] at hs2
          exact absurd hs2.1 (by decide)
        · simp only [List.cons_append, List.cons.injEq] at hs2
          refine List.mem_cons_of_mem _ (ih p s''' t hp hpc ?_ hs2.2)
          intro e he
          exact hl e (List.mem_cons_of_mem _ he)
      · have ha' : '"' ∉ a' := hl a' (by simp)
        rw [hitems] at h
        have hshape : jsonElem (some a') ++ ',' :: jsonItems (b :: rest') =
            '"' :: (a' ++ '"' :: ',' :: jsonItems (b :: rest')) := by
          simp [jsonElem]
        rw [hshape] at h
        rcases s with _ | ⟨c, s'⟩
        · simp only [List.nil_append, List.cons.injEq] at h
          obtain ⟨hpa, -⟩ := quoted_prefix_eq p a' hp ha' _ _ h.2
          simp [hpa]
        · simp only [List.cons_append, List.cons.injEq] at h
          obtain ⟨s'', -, hs2⟩ := skipBlock a' s' _ _ ha' h.2
          rcases s'' with _ | ⟨d, s'''⟩
          · simp only [List.nil_append, List.cons.injEq, true_and] at hs2
            rcases p with _ | ⟨c2, p''⟩
            · simp at hs2
            · simp only [List.cons_append, List.cons.injEq] at hs2
              have hcm : ',' ∈ c2 :: p'' := by
                rw [← hs2.1]
                exact List.mem_cons_self c2 p''
              exact absurd hcm hpc
          · simp only [List.cons_append, List.cons.injEq] at hs2
            rcases s''' with _ | ⟨e, s4⟩
            · simp only [List.nil_append, List.cons.injEq] at hs2
              exact absurd hs2.2.1 (by decide)
            · simp only [List.cons_append, List.cons.injEq] at hs2
              refine List.mem_cons_of_mem _ (ih p s4 t hp hpc ?_ hs2.2.2)
              intro e2 he2
              exact hl e2 (List.mem_cons_of_mem _ he2)

lemma sub_items_of_mem : ∀ (l : List (Option Str)) (p : Str), some p ∈ l →
    jsonElem (some p) <:+: jsonItems l := by
  intro l
  induction l with
  | nil => intro p h; cases h
  | cons a rest ih =>
    intro p h
    rcases rest with _ | ⟨b, rest'⟩
    · have ha : some p = a := by simpa using h
      exact ⟨[], [], by simp [← ha, jsonItems]⟩
    · rcases List.mem_cons.mp h with heq | hrest
      · exact ⟨[], ',' :: jsonItems (b :: rest'), by simp [← heq, jsonItems]⟩
      · obtain ⟨s, t2, hst⟩ := ih p hrest
        refine ⟨jsonElem a ++ ',' :: s, t2, ?_⟩
        rw [show jsonItems (a :: b :: rest') =
          jsonElem a ++ ',' :: jsonItems (b :: rest') from rfl, ← hst]
        simp

lemma likeContains_jsonArr_iff (l : List (Option Str)) (p : Str)
    (hp : ∀ c ∈ p, c.isDigit = true)
    (hl : ∀ e : Str, some e ∈ l → '"' ∉ e) :
    likeContains (jsonArr l) (jsonElem (some p)) = true ↔ some p ∈ l := by
  have hq : '"' ∉ p := fun hh => absurd (hp _ hh) (by decide)
  have hc : ',' ∉ p := fun hh => absurd (hp _ hh) (by decide)
  constructor
  · intro h
    have hinf : jsonElem (some p) <:+: jsonArr l := by
      simpa [likeContains] using h
    obtain ⟨s, t2, heq⟩ := hinf
    rw [show jsonArr l = '[' :: (jsonItems l ++ [']']) from rfl] at heq
    rcases s with _ | ⟨c, s'⟩
    · rw [show jsonElem (some p) = '"' :: (p ++ ['"']) from rfl] at heq
      simp only [List.nil_append, List.cons_append, List.cons.injEq] at heq
      exact absurd heq.1 (by decide)
    · simp only [List.cons_append, List.cons.injEq] at heq
      rcases List.eq_nil_or_concat t2 with rfl | ⟨t3, c2, rfl⟩
      · have heq2 : (s' ++ ('"' :: p)) ++ ['"'] = jsonItems l ++ [']'] := by
          rw [← heq.2]
          simp [jsonElem]
        have h3 := List.append_inj' heq2 rfl
        have h4 : '"' = ']' := by simpa using h3.2
        exact absurd h4 (by decide)
      · have heq2 : (s' ++ ('"' :: (p ++ '"' :: t3))) ++ [c2] =
            jsonItems l ++ [']'] := by
          rw [← heq.2]
          simp [jsonElem, List.concat_eq_append]
        have h3 := List.append_inj' heq2 rfl
        exact mem_of_quoted_sub_items l p s' t3 hq hc hl (by simpa using h3.1)
  · intro hmem
    obtain ⟨s, t2, hst⟩ := sub_items_of_mem l p hmem
    have harr : ('[' :: s) ++ jsonElem (some p) ++ (t2 ++ [']']) = jsonArr l := by
      rw [show jsonArr l = '[' :: (jsonItems l ++ [']']) from rfl, ← hst]
      simp
    have : jsonElem (some p) <:+: jsonArr l := ⟨'[' :: s, t2 ++ [']'], harr⟩
    simpa [likeContains] using this

lemma authRows_ne_nil (tdb : TenantDb) (phone : Str) :
    authRows tdb phone ≠ [] ↔
      ∃ pr ∈ tdb.profiles,
        (∃ usr ∈ tdb.users, usr.id = pr.user_id ∧ usr.is_active = true) ∧
        (pr.phone = phone ∨
          likeContains (jsonArr (pr.wa_phones.map some))
            (jsonElem (some phone)) = true) := by
  constructor
  · intro h
    obtain ⟨x, hx⟩ := List.exists_mem_of_ne_nil _ h
    obtain ⟨u', hu', hx2⟩ := List.mem_flatMap.mp hx
    obtain ⟨pr, hpr, -⟩ := List.mem_map.mp hx2
    obtain ⟨hum, hact⟩ := List.mem_filter.mp hu'
    obtain ⟨hprm, hcond⟩ := List.mem_filter.mp hpr
    simp only [decide_eq_true_eq] at hact hcond
    exact ⟨pr, hprm, ⟨u', hum, hcond.1.symm, hact⟩, by
      simpa using hcond.2⟩
  · rintro ⟨pr, hpr, ⟨usr, husr, hid, hact⟩, hcond⟩
    intro hnil
    have hmem : usr.id ∈ authRows tdb phone := by
      refine List.mem_flatMap.mpr ⟨usr, List.mem_filter.mpr ⟨husr, by simp [hact]⟩,
        List.mem_map.mpr ⟨pr, List.mem_filter.mpr ⟨hpr, ?_⟩, rfl⟩⟩
      simp only [decide_eq_true_eq]
      exact ⟨hid.symm, by simpa using hcond⟩
    rw [hnil] at hmem
    cases hmem

/-! ## Claim C1: batch accounting -/

/-- C1 (amended): for an authorized caller, `saveContactsBatch` returns
counters with `saved + failed` equal to the total size of the 20-item chunks
that contain at least one item with a truthy primary identifier (`wid`);
identifier-less and lid-only items inside such chunks are counted as well,
so `saved + failed = N - S` fails for mixed chunks. -/
theorem claim1_batch_counts_by_chunk (tdb : TenantDb) (me u : Str) (db : Db)
    (items : List BatchItem) (ok : List BatchItem → Bool) (t : Nat)
    (hu : getDbUser tdb me = some u) :
    (saveContactsBatch tdb me db items ok t).2.saved +
        (saveContactsBatch tdb me db items ok t).2.failed =
      (((chunks20 items).filter fun c =>
          c.any fun it => truthyS it.contact.wid).map List.length).sum := by
  simp only [saveContactsBatch, hu, saveContactsBatchAuth]
  have h := batchFold_counts u ok t (chunks20 items) (db, 0, 0)
  simpa using h

/-- C1 counterexample: an authorized two-item batch, one item with a wid and
one with no identifier at all (`S = 1`), yields `saved + failed = 2`, not
`N - S = 1`: the skipped item shares a chunk with the addressable one and is
counted anyway. -/
theorem claim1_counterexample :
    (let tdb : TenantDb := ⟨[⟨chars "u1", true⟩], [⟨chars "u1", chars "5551", []⟩]⟩
     let items : List BatchItem :=
       [⟨⟨some (chars "a@c.us"), none, none, none, none, true, []⟩, none, none⟩,
        ⟨⟨none, none, none, none, none, true, []⟩, none, none⟩]
     let r := (saveContactsBatch tdb (chars "5551") Db.empty items
       (fun _ => true) 0).2
     r.saved + r.failed = 2 ∧
       (items.filter fun it =>
           ¬ truthyS it.contact.wid ∧ ¬ truthyS (effLid it)).length = 1 ∧
       r.saved + r.failed ≠
         items.length -
           (items.filter fun it =>
             ¬ truthyS it.contact.wid ∧ ¬ truthyS (effLid it)).length) := by
  decide

/-- C1 witness: the amended accounting instantiated on a concrete authorized
two-item batch. -/
theorem claim1_witness :
    (let tdb : TenantDb := ⟨[⟨chars "u1", true⟩], [⟨chars "u1", chars "5551", []⟩]⟩
     let items : List BatchItem :=
       [⟨⟨some (chars "a@c.us"), none, none, none, none, true, []⟩, none, none⟩,
        ⟨⟨none, none, none, none, none, true, []⟩, none, none⟩]
     (saveContactsBatch tdb (chars "5551") Db.empty items (fun _ => true) 0).2.saved +
         (saveContactsBatch tdb (chars "5551") Db.empty items
           (fun _ => true) 0).2.failed =
       (((chunks20 items).filter fun c =>
           c.any fun it => truthyS it.contact.wid).map List.length).sum) := by
  exact claim1_batch_counts_by_chunk _ _ (chars "u1") _ _ _ _ (by decide)

/-! ## Claim C2: orphan promotion through the lid lookup -/

/-- C2: after a first save carrying only the secondary identifier `X` (one
Contact row with `wid = NULL` plus one overlay row recording `X` for the
caller), a second save by the same caller that resolves `X` to a phone `p`
(still without a primary identifier) and finds no Contact holding `p`
updates that same Contact row in place instead of creating a second row. -/
theorem claim2_orphan_promotion (u X p : Str) (hX : X ≠ []) (hp : p ≠ [])
    (obs1 obs2 : SaveData)
    (h1w : obs1.wid = none) (h1l : obs1.lid = some X)
    (h2w : obs2.wid = none) (h2l : obs2.lid = some X)
    (h2p : obs2.phone = some p)
    (hfresh : obs1.phone ≠ some p)
    (t1 t2 : Nat) :
    ((saveContactAuth u Db.empty obs1 t1).1.contacts.map
        (fun c => (c.id, c.wid, c.phone)) = [(1, none, obs1.phone)]) ∧
    (∀ c ∈ (saveContactAuth u Db.empty obs1 t1).1.contacts, c.phone ≠ some p) ∧
    ((saveContactAuth u (saveContactAuth u Db.empty obs1 t1).1 obs2
        t2).1.contacts.map
        (fun c => (c.id, c.wid, c.phone)) = [(1, none, some p)]) ∧
    ((saveContactAuth u (saveContactAuth u Db.empty obs1 t1).1 obs2
        t2).1.contactsUsers.map
        (fun r => (r.contact_id, r.user_id, r.lid)) = [(1, u, some X)]) := by
  have hXt : truthyS (some X) = true := by
    simp [truthyS, List.isEmpty_iff, hX]
  have hXn : orNullStr (some X) = some X := by simp [orNullStr, hXt]
  have hpn : orNullStr (some p) = some p := by
    simp [orNullStr, truthyS, List.isEmpty_iff, hp]
  obtain ⟨ti1, w1, l1, n1, p1, pb1, lk1, co1⟩ := obs1
  obtain ⟨ti2, w2, l2, n2, p2, pb2, lk2, co2⟩ := obs2
  simp only at h1w h1l h2w h2l h2p hfresh
  subst h1w h1l h2w h2l h2p
  rcases co1 with _ | c1 <;> rcases co2 with _ | c2 <;>
    refine ⟨by simp [saveContactAuth, resolveContactId, truthyS, hXt, Db.empty,
        cuUpsertBig, cuUpsertSmall], ?_, ?_, ?_⟩ <;>
    simp [saveContactAuth, resolveContactId, truthyS, hXt, hXn, hpn, Db.empty,
      cuUpsertBig, cuUpsertSmall, updateContactById, List.find?, hfresh, hX, hp]

/-- C2 witness: the orphan-promotion theorem instantiated on the concrete
identifiers of the spec's example. -/
theorem claim2_witness :
    (let obs1 : SaveData :=
       ⟨true, none, some (chars "X@lid"), some (chars "N"), none, none,
         [some (chars "X@lid")], none⟩
     let obs2 : SaveData :=
       ⟨true, none, some (chars "X@lid"), some (chars "N"),
         some (chars "555199765256"), some (chars "5551999765256"),
         [some (chars "X@lid"), some (chars "555199765256")], none⟩
     ((saveContactAuth (chars "u1") Db.empty obs1 5).1.contacts.map
         (fun c => (c.id, c.wid, c.phone)) = [(1, none, none)]) ∧
     ((saveContactAuth (chars "u1")
         (saveContactAuth (chars "u1") Db.empty obs1 5).1 obs2
         9).1.contacts.map
         (fun c => (c.id, c.wid, c.phone)) =
       [(1, none, some (chars "555199765256"))]) ∧
     ((saveContactAuth (chars "u1")
         (saveContactAuth (chars "u1") Db.empty obs1 5).1 obs2
         9).1.contactsUsers.map
         (fun r => (r.contact_id, r.user_id, r.lid)) =
       [(1, chars "u1", some (chars "X@lid"))])) := by
  have h := claim2_orphan_promotion (chars "u1") (chars "X@lid")
    (chars "555199765256") (by decide) (by decide)
    ⟨true, none, some (chars "X@lid"), some (chars "N"), none, none,
      [some (chars "X@lid")], none⟩
    ⟨true, none, some (chars "X@lid"), some (chars "N"),
      some (chars "555199765256"), some (chars "5551999765256"),
      [some (chars "X@lid"), some (chars "555199765256")], none⟩
    rfl rfl rfl rfl rfl (by decide) 5 9
  exact ⟨h.1, h.2.2.1, h.2.2.2⟩

/-! ## Claim C3: the two phoneBR derivations -/

/-- C3 (amended): the phoneBR rule inlined in `checkNumber` and
`formatPhoneBR` agree on 12-character phones starting with `"55"` whose
subscriber part starts with a digit in 6-9; they are not equal in general,
because the inline rule never inspects the subscriber's first digit. -/
theorem claim3_phoneBR_agreement (p : Str) (h12 : p.length = 12)
    (h55 : (chars "55").isPrefixOf p = true)
    (hm : firstIsMobile (p.drop 4) = true) :
    inlinePhoneBRs p = formatPhoneBRs p := by
  have h55' := h55
  rw [ List.isPrefixOf_iff_prefix] at h55'
  obtain ⟨t, rfl⟩ := h55'
  have ht : t.length = 10 := by simp [chars] at h12; omega
  have hd : (chars "55" ++ t).drop 4 = t.drop 2 := by simp [chars, List.drop]
  rw [hd] at hm
  simp [inlinePhoneBRs, formatPhoneBRs, stripPrefix55, chars, List.take_cons,
    List.drop, ht, hm, h55, h12, List.isPrefixOf_iff_prefix, List.prefix_append]

/-- C3 counterexample: on `"551234567890"` (12 digits, `55`-prefixed,
subscriber starting `'3'`) the `checkNumber` inline rule inserts a `'9'`
while `formatPhoneBR` returns the phone unchanged, so the two derivations
are not identical. -/
theorem claim3_counterexample :
    inlinePhoneBRs (chars "551234567890") = chars "5512934567890" ∧
    formatPhoneBRs (chars "551234567890") = chars "551234567890" ∧
    inlinePhoneBRs (chars "551234567890") ≠
      formatPhoneBRs (chars "551234567890") := by
  decide

/-- C3 witness: the agreement theorem instantiated on a mobile-range phone. -/
theorem claim3_witness :
    inlinePhoneBRs (chars "555198765432") = formatPhoneBRs (chars "555198765432") :=
  claim3_phoneBR_agreement (chars "555198765432") (by decide) (by decide)
    (by decide)

/-! ## Claim C7: the formatPhoneBR rule -/

/-- C7: `formatPhoneBR` strips the leading `"55"`; on a 10-digit remainder
whose subscriber part starts with 6-9 it inserts a literal `'9'` after the
2-digit area code; on other 10/11-digit remainders it re-prefixes `"55"`
leaving the phone unchanged; in particular `"5551988887777"` is a no-op and
`"555187654321"` (subscriber starting `'8'`) gains a `'9'`. -/
theorem claim7_formatPhoneBR (p : Str) (h55 : (chars "55").isPrefixOf p = true) :
    (p.length = 12 → firstIsMobile (p.drop 4) = true →
        formatPhoneBRs p = p.take 4 ++ '9' :: p.drop 4) ∧
    (p.length = 12 → firstIsMobile (p.drop 4) = false → formatPhoneBRs p = p) ∧
    (p.length = 13 → formatPhoneBRs p = p) ∧
    formatPhoneBRs (chars "5551988887777") = chars "5551988887777" ∧
    formatPhoneBRs (chars "555187654321") = chars "5551987654321" := by
  rw [ List.isPrefixOf_iff_prefix] at h55
  obtain ⟨t, rfl⟩ := h55
  refine ⟨?_, ?_, ?_, by decide, by decide⟩
  · intro hlen hm
    have ht : t.length = 10 := by simp [chars] at hlen; omega
    have hd : (chars "55" ++ t).drop 4 = t.drop 2 := by simp [chars, List.drop]
    rw [hd] at hm
    simp [formatPhoneBRs, stripPrefix55, chars, List.take_cons, List.drop, ht,
      hm, List.isPrefixOf_iff_prefix, List.prefix_append]
  · intro hlen hm
    have ht : t.length = 10 := by simp [chars] at hlen; omega
    have hd : (chars "55" ++ t).drop 4 = t.drop 2 := by simp [chars, List.drop]
    rw [hd] at hm
    simp [formatPhoneBRs, stripPrefix55, chars, List.drop, ht, hm,
      List.isPrefixOf_iff_prefix, List.prefix_append]
  · intro hlen
    have ht : t.length = 11 := by simp [chars] at hlen; omega
    simp [formatPhoneBRs, stripPrefix55, chars, List.drop, ht,
      List.isPrefixOf_iff_prefix, List.prefix_append]

/-- C7 witness: the rule instantiated on `"555187654321"`, checking the
9-insertion concretely. -/
theorem claim7_witness :
    formatPhoneBRs (chars "555187654321") =
      (chars "555187654321").take 4 ++ '9' :: (chars "555187654321").drop 4 :=
  (claim7_formatPhoneBR (chars "555187654321") (by decide)).1 (by decide)
    (by decide)

/-! ## Claim C8: message body nulling -/

/-- C8 (amended): both the single `saveContactMessage` path and the batched
path store `body = NULL` exactly when the message type is `'document'`, and
the observed body for every other type, text or not. -/
theorem claim8_message_body (u : Str) (db : Db) (w : Str) (m : MessageData)
    (t : Nat) (c : ContactRow)
    (hc : db.contacts.find? (fun x => x.wid = some w) = some c)
    (it : BatchItem) (hw : truthyS it.contact.wid = true)
    (hm : it.lastMessage = some m) :
    (∃ r ∈ ((saveContactMessageAuth u db w m t).1).contactMessages,
        r.contact_id = c.id ∧ r.user_id = u ∧
        r.body = (if m.mtype = chars "document" then none else some m.body)) ∧
    (∃ r ∈ (applyBatchItem u db it t).contactMessages,
        r.user_id = u ∧
        r.body = (if m.mtype = chars "document" then none else some m.body)) := by
  constructor
  · simp only [saveContactMessageAuth, hc]
    obtain ⟨r, hr, h1, h2, h3⟩ := upsertContactMessage_mem db c.id u m t
    exact ⟨r, hr, h1, h2, by simpa [msgBodyArg] using h3⟩
  · unfold applyBatchItem
    simp only [hw, if_true, hm]
    set w' := it.contact.wid.getD [] with hw'
    set db1 := upsertContactByWid db w' it.contact.name it.contact.phone
      it.contact.phoneBR it.contact.there_is it.contact.link t with hdb1
    have hmem : ∃ c1 ∈ db1.contacts, c1.wid = some w' :=
      upsertContactByWid_mem db w' _ _ _ _ _ t
    rcases hcu : it.contact_user with _ | cu
    · have hfind : (db1.contacts.find? (fun c => c.wid = some w')).isSome := by
        rw [List.find?_isSome]
        obtain ⟨c1, h1, h2⟩ := hmem
        exact ⟨c1, h1, by simp [h2]⟩
      obtain ⟨c2, hc2⟩ := Option.isSome_iff_exists.mp hfind
      simp only [hc2]
      obtain ⟨r, hr, h1, h2, h3⟩ := upsertContactMessage_mem db1 c2.id u m t
      exact ⟨r, hr, h2, by simpa [msgBodyArg] using h3⟩
    · have hfind : (db1.contacts.find? (fun c => c.wid = some w')).isSome := by
        rw [List.find?_isSome]
        obtain ⟨c1, h1, h2⟩ := hmem
        exact ⟨c1, h1, by simp [h2]⟩
      obtain ⟨c2, hc2⟩ := Option.isSome_iff_exists.mp hfind
      simp only [hc2]
      set db2 := cuUpsertBig db1 c2.id u (orNullStr (effLid it)) cu.extra t
        with hdb2
      have hco : db2.contacts = db1.contacts := cuUpsertBig_contacts _ _ _ _ _ _
      have hfind2 : (db2.contacts.find? (fun c => c.wid = some w')).isSome := by
        rw [hco]; exact hfind
      obtain ⟨c3, hc3⟩ := Option.isSome_iff_exists.mp hfind2
      simp only [hc3]
      obtain ⟨r, hr, h1, h2, h3⟩ := upsertContactMessage_mem db2 c3.id u m t
      exact ⟨r, hr, h2, by simpa [msgBodyArg] using h3⟩

/-- C8 counterexample: an `'image'` message (a non-text type) is stored with
its observed body, not NULL, refuting "body is NULL for every non-text
type". -/
theorem claim8_counterexample :
    (let db : Db :=
       ⟨[⟨1, some (chars "c@c.us"), none, none, none, true, [], 0⟩], [], [], 2⟩
     let m : MessageData :=
       ⟨chars "m1", chars "ch", chars "hi", chars "image", 0, 1, false, 0,
         false, true⟩
     chars "image" ≠ chars "chat" ∧
       (saveContactMessageAuth (chars "u1") db (chars "c@c.us")
           m 3).1.contactMessages.map (·.body) = [some (chars "hi")]) := by
  decide

/-- C8 witness: the amended body rule instantiated on a concrete store and
message. -/
theorem claim8_witness :
    ∃ r ∈ ((saveContactMessageAuth (chars "u1")
        ⟨[⟨1, some (chars "c@c.us"), none, none, none, true, [], 0⟩], [], [], 2⟩
        (chars "c@c.us")
        ⟨chars "m1", chars "ch", chars "hi", chars "chat", 0, 1, false, 0,
          false, true⟩ 3).1).contactMessages,
      r.contact_id = 1 ∧ r.user_id = chars "u1" ∧
      r.body = (if chars "chat" = chars "document" then none
        else some (chars "hi")) := by
  have h := claim8_message_body (chars "u1")
    ⟨[⟨1, some (chars "c@c.us"), none, none, none, true, [], 0⟩], [], [], 2⟩
    (chars "c@c.us")
    ⟨chars "m1", chars "ch", chars "hi", chars "chat", 0, 1, false, 0, false,
      true⟩ 3
    ⟨1, some (chars "c@c.us"), none, none, none, true, [], 0⟩ (by decide)
    ⟨⟨some (chars "c@c.us"), none, none, none, none, true, []⟩, none,
      some ⟨chars "m1", chars "ch", chars "hi", chars "chat", 0, 1, false, 0,
        false, true⟩⟩ (by decide) rfl
  exact h.1

/-! ## Claim C9: read-through cache short-circuit -/

/-- C9: when `getContactByLink` returns a cached record (storage holds a
Contact whose link text contains the identifier for the calling user),
`checkNumber` returns that record unchanged and issues neither `queryExists`
nor `getPnLidEntry`; the live path runs only on a cache miss. -/
theorem claim9_cache_short_circuit (tdb : TenantDb) (me : Str) (db : Db)
    (cid : Str) (r : CheckRecord) (qe : Option QueryExistsResult)
    (pnl : Str → PnEntry)
    (hauth : isAuthenticatedUser tdb me = true)
    (hcache : getContactByLink tdb me db cid = some r) :
    checkNumber tdb me db qe pnl cid =
      (.result r.there_is r.data, ⟨false, false⟩) := by
  unfold checkNumber
  rw [hauth, hcache]
  simp

/-- C9 witness: a concrete cached contact is returned by `checkNumber` with
no live query flags set. -/
theorem claim9_witness :
    (let tdb : TenantDb :=
       ⟨[⟨chars "u1", true⟩], [⟨chars "u1", chars "5551999999999", []⟩]⟩
     let db : Db :=
       ⟨[⟨1, some (chars "c@c.us"), some (chars "N"), some (chars "555"), none,
           false, [some (chars "c@c.us"), some (chars "555")], 0⟩], [], [], 2⟩
     ∃ r, getContactByLink tdb (chars "5551999999999") db (chars "555") =
         some r ∧
       checkNumber tdb (chars "5551999999999") db none (fun _ => ⟨none, none⟩)
           (chars "555") =
         (.result r.there_is r.data, ⟨false, false⟩)) := by
  refine ⟨_, rfl, ?_⟩
  exact claim9_cache_short_circuit _ _ _ _ _ _ _ (by decide) rfl

/-! ## Claim C10: the cache hard-codes existence -/

/-- C10: every cache hit of `getContactByLink` reports `there_is = true` at
both levels, whatever `there_is` value the matched Contact row stores; so a
contact persisted with `there_is = false` is reported as existing by any
later cache-served `checkNumber` call. -/
theorem claim10_cache_reports_existing (tdb : TenantDb) (me : Str) (db : Db)
    (cid : Str) (c : ContactRow) (qe : Option QueryExistsResult)
    (pnl : Str → PnEntry)
    (hauth : isAuthenticatedUser tdb me = true)
    (hfind : findCachedRow db cid = some c) :
    ∃ r, getContactByLink tdb me db cid = some r ∧ r.there_is = true ∧
      r.data.there_is = true ∧
      (c.there_is = false →
        checkNumber tdb me db qe pnl cid =
          (.result true r.data, ⟨false, false⟩)) := by
  have h1 : (getDbUser tdb me).isSome = true := by
    rw [getDbUser_isSome_eq, hauth]
  obtain ⟨u, hu⟩ := Option.isSome_iff_exists.mp h1
  have hlink : ∃ r, getContactByLink tdb me db cid = some r ∧
      r.there_is = true ∧ r.data.there_is = true := by
    unfold getContactByLink getContactByLinkCore
    rw [hu, hfind]
    exact ⟨_, rfl, rfl, rfl⟩
  obtain ⟨r, hr, hrt, hrd⟩ := hlink
  refine ⟨r, hr, hrt, hrd, fun _ => ?_⟩
  unfold checkNumber
  rw [hauth, hr]
  simp [hrt]

/-- C10 witness: a contact stored with `there_is = false` is served from the
cache as existing. -/
theorem claim10_witness :
    (let tdb : TenantDb :=
       ⟨[⟨chars "u1", true⟩], [⟨chars "u1", chars "5551999999999", []⟩]⟩
     let db : Db :=
       ⟨[⟨1, some (chars "c@c.us"), some (chars "N"), some (chars "555"), none,
           false, [some (chars "c@c.us"), some (chars "555")], 0⟩], [], [], 2⟩
     ∃ r, getContactByLink tdb (chars "5551999999999") db (chars "555") =
         some r ∧ r.there_is = true ∧ r.data.there_is = true ∧
       checkNumber tdb (chars "5551999999999") db none (fun _ => ⟨none, none⟩)
           (chars "555") =
         (.result true r.data, ⟨false, false⟩)) := by
  have h := claim10_cache_reports_existing
    ⟨[⟨chars "u1", true⟩], [⟨chars "u1", chars "5551999999999", []⟩]⟩
    (chars "5551999999999")
    ⟨[⟨1, some (chars "c@c.us"), some (chars "N"), some (chars "555"), none,
        false, [some (chars "c@c.us"), some (chars "555")], 0⟩], [], [], 2⟩
    (chars "555")
    ⟨1, some (chars "c@c.us"), some (chars "N"), some (chars "555"), none,
      false, [some (chars "c@c.us"), some (chars "555")], 0⟩
    none (fun _ => ⟨none, none⟩) (by decide) (by decide)
  obtain ⟨r, h1, h2, h3, h4⟩ := h
  exact ⟨r, h1, h2, h3, h4 rfl⟩

/-! ## Claim C4: identity resolution priority -/

/-- C4: `saveContact`'s resolution follows the claimed priority: a (truthy)
wid leads to an upsert keyed on wid whose row carries the observation's
fields and whose id is read back; else a lid with an existing overlay row
for the *current* user reuses its `contact_id` and refreshes the Contact's
mutable fields in place; else a fresh row with `wid = NULL` is inserted and
its generated id used; in every case the overlay row written carries the
resolved id.  Well-formedness: identifiers are never the empty string. -/
theorem claim4_resolution_priority (u : Str) (db : Db) (d : SaveData) (t : Nat)
    (hwfw : d.wid ≠ some []) (hwfl : d.lid ≠ some []) :
    (∀ w, d.wid = some w →
      (∃ c' ∈ (resolveContactId u db d t).1.contacts,
          c'.wid = some w ∧ c'.name = d.name ∧ c'.phone = d.phone ∧
          c'.phoneBR = d.phoneBR ∧ c'.there_is = d.there_is ∧
          c'.link = d.link ∧ (resolveContactId u db d t).2 = some c'.id) ∧
      ((∃ c ∈ db.contacts, c.wid = some w) →
        (resolveContactId u db d t).1.contacts.length =
          db.contacts.length) ∧
      ((∀ c ∈ db.contacts, c.wid ≠ some w) →
        (resolveContactId u db d t).1.contacts.length =
          db.contacts.length + 1)) ∧
    (∀ l r, d.wid = none → d.lid = some l →
      db.contactsUsers.find? (fun x => x.user_id = u ∧ x.lid = some l) =
        some r →
      (resolveContactId u db d t).2 = some r.contact_id ∧
      (resolveContactId u db d t).1.contacts.length = db.contacts.length ∧
      (∀ c ∈ db.contacts,
        (c.id = r.contact_id →
          ({ c with
              name := orNullStr d.name
              phone := orNullStr d.phone
              phoneBR := orNullStr d.phoneBR
              there_is := d.there_is
              link := d.link
              updated_at := t } : ContactRow) ∈
            (resolveContactId u db d t).1.contacts) ∧
        (c.id ≠ r.contact_id → c ∈ (resolveContactId u db d t).1.contacts))) ∧
    ((d.wid = none ∧ (d.lid = none ∨
        db.contactsUsers.find?
          (fun x => x.user_id = u ∧ x.lid = d.lid) = none)) →
      (resolveContactId u db d t).1.contacts =
        db.contacts ++
          [⟨db.nextId, none, d.name, d.phone, d.phoneBR, d.there_is,
            d.link, t⟩] ∧
      (resolveContactId u db d t).2 = some db.nextId) ∧
    (∀ cid, (resolveContactId u db d t).2 = some cid →
      ∃ r ∈ (saveContactAuth u db d t).1.contactsUsers,
        r.contact_id = cid ∧ r.user_id = u) := by
  refine ⟨?_, ?_, ?_, ?_⟩
  · intro w hw
    have hwt : truthyS d.wid = true := by
      rcases w with _ | ⟨c, w'⟩
      · exact absurd hw hwfw
      · simp [hw, truthyS]
    have hres : resolveContactId u db d t =
        (upsertContactByWid db w d.name d.phone d.phoneBR d.there_is d.link t,
          ((upsertContactByWid db w d.name d.phone d.phoneBR d.there_is
            d.link t).contacts.find? (fun c => c.wid = some w)).map (·.id)) := by
      unfold resolveContactId
      rw [hwt]
      simp [hw]
    obtain ⟨c', hfind, hcw, hn, hp, hpb, hti, hl⟩ :=
      upsertContactByWid_spec db w d.name d.phone d.phoneBR d.there_is d.link t
    refine ⟨⟨c', List.mem_of_find?_eq_some (by rw [hres]; exact hfind),
      hcw, hn, hp, hpb, hti, hl, by rw [hres]; simp [hfind]⟩, ?_, ?_⟩
    · intro hex
      rw [hres]
      unfold upsertContactByWid
      have : db.contacts.any (fun c => c.wid = some w) = true := by
        simpa using hex
      simp [this]
    · intro hall
      rw [hres]
      unfold upsertContactByWid
      have : db.contacts.any (fun c => c.wid = some w) = false := by
        simp only [List.any_eq_false, decide_eq_true_eq]
        exact hall
      simp [this]
  · intro l r hw hl hfind
    have hlt : truthyS (some l) = true := by
      rcases l with _ | _
      · rw [hl] at hwfl; exact absurd rfl hwfl
      · simp [truthyS]
    obtain ⟨ti, wv, lv, nv, pv, pbv, lkv, cov⟩ := d
    simp only at hw hl
    subst hw hl
    have hres : resolveContactId u db
        ⟨ti, none, some l, nv, pv, pbv, lkv, cov⟩ t =
        (updateContactById db r.contact_id (orNullStr nv) (orNullStr pv)
          (orNullStr pbv) ti lkv t, some r.contact_id) := by
      show (let found := if truthyS (some l) = true then
          (db.contactsUsers.find?
            (fun x => x.user_id = u ∧ x.lid = some l)).map (·.contact_id)
        else none
        match found with
        | some cid =>
          (updateContactById db cid (orNullStr nv) (orNullStr pv)
            (orNullStr pbv) ti lkv t, some cid)
        | none =>
          ({ db with
              contacts := db.contacts ++
                ([⟨db.nextId, none, nv, pv, pbv, ti, lkv, t⟩] :
                  List ContactRow)
              nextId := db.nextId + 1 }, some db.nextId)) = _
      rw [if_pos hlt, hfind]
      rfl
    rw [hres]
    refine ⟨rfl, by simp [updateContactById], ?_⟩
    intro c hc
    constructor
    · intro hid
      simp only [updateContactById]
      exact List.mem_map.mpr ⟨c, hc, by simp [hid]⟩
    · intro hid
      simp only [updateContactById]
      exact List.mem_map.mpr ⟨c, hc, by simp [hid]⟩
  · rintro ⟨hw, hdisj⟩
    obtain ⟨ti, wv, lv, nv, pv, pbv, lkv, cov⟩ := d
    simp only at hw hdisj
    subst hw
    have hres : resolveContactId u db
        ⟨ti, none, lv, nv, pv, pbv, lkv, cov⟩ t =
        ({ db with
            contacts := db.contacts ++
              [⟨db.nextId, none, nv, pv, pbv, ti, lkv, t⟩]
            nextId := db.nextId + 1 }, some db.nextId) := by
      rcases hdisj with hl | hfnone
      · subst hl
        rfl
      · show (let found := if truthyS lv = true then
            (db.contactsUsers.find?
              (fun x => x.user_id = u ∧ x.lid = lv)).map (·.contact_id)
          else none
          match found with
          | some cid =>
            (updateContactById db cid (orNullStr nv) (orNullStr pv)
              (orNullStr pbv) ti lkv t, some cid)
          | none =>
            ({ db with
                contacts := db.contacts ++
                  ([⟨db.nextId, none, nv, pv, pbv, ti, lkv, t⟩] :
                    List ContactRow)
                nextId := db.nextId + 1 }, some db.nextId)) = _
        by_cases hl2 : truthyS lv = true
        · rw [if_pos hl2, hfnone]
          rfl
        · rw [if_neg hl2]
    rw [hres]
    exact ⟨rfl, rfl⟩
  · intro cid hcid
    unfold saveContactAuth
    rcases hdc : d.contact with _ | c
    · simp only [hcid, hdc]
      obtain ⟨r, hr, h1, h2, _⟩ :=
        cuUpsertSmall_mem (resolveContactId u db d t).1 cid u (orNullStr d.lid)
      exact ⟨r, hr, h1, h2⟩
    · simp only [hcid, hdc]
      obtain ⟨r, hr, h1, h2, _⟩ :=
        cuUpsertBig_mem (resolveContactId u db d t).1 cid u (orNullStr d.lid) c t
      exact ⟨r, hr, h1, h2⟩

/-- C4 witness: the wid-priority path instantiated on a concrete
observation. -/
theorem claim4_witness :
    (let d : SaveData :=
       ⟨true, some (chars "w@c.us"), none, some (chars "N"),
         some (chars "555"), none, [some (chars "w@c.us")], none⟩
     ∃ c' ∈ (resolveContactId (chars "u1") Db.empty d 0).1.contacts,
       c'.wid = some (chars "w@c.us") ∧ c'.name = d.name ∧
       c'.phone = d.phone ∧ c'.phoneBR = d.phoneBR ∧
       c'.there_is = d.there_is ∧ c'.link = d.link ∧
       (resolveContactId (chars "u1") Db.empty d 0).2 = some c'.id) := by
  have h := claim4_resolution_priority (chars "u1") Db.empty
    ⟨true, some (chars "w@c.us"), none, some (chars "N"), some (chars "555"),
      none, [some (chars "w@c.us")], none⟩ 0 (by decide) (by decide)
  exact (h.1 (chars "w@c.us") rfl).1

/-! ## Claim C5: idempotence of a repeated save -/

/-- C5 (amended): saving the same observation (carrying at least one truthy
identifier) twice from a fresh store yields exactly one Contact row and one
ContactUser row for the (contact_id, user_id) pair, and the second call
changes only timestamp columns - provided the observation carries a wid, or
none of name/phone/phoneBR is the empty string (the lid-path refresh
coerces JS-falsy fields to NULL, which the counterexample exhibits). -/
theorem claim5_idempotent_second_save (u : Str) (d : SaveData) (t1 t2 : Nat)
    (hwfw : d.wid ≠ some [])
    (hid : truthyS d.wid = true ∨ truthyS d.lid = true)
    (hstable : truthyS d.wid = true ∨
      (d.name ≠ some [] ∧ d.phone ≠ some [] ∧ d.phoneBR ≠ some [])) :
    ((saveContactAuth u Db.empty d t1).1.contacts.length = 1) ∧
    ((saveContactAuth u Db.empty d t1).1.contactsUsers.length = 1) ∧
    ((saveContactAuth u (saveContactAuth u Db.empty d t1).1 d
        t2).1.contacts.length = 1) ∧
    ((saveContactAuth u (saveContactAuth u Db.empty d t1).1 d
        t2).1.contactsUsers.length = 1) ∧
    eraseTimes (saveContactAuth u (saveContactAuth u Db.empty d t1).1 d t2).1 =
      eraseTimes (saveContactAuth u Db.empty d t1).1 := by
  obtain ⟨ti, wv, lv, nv, pv, pbv, lkv, cov⟩ := d
  simp only at hwfw hid hstable ⊢
  rcases hw : truthyS wv with _ | _
  · -- wid falsy, hence wid absent: the lid path
    have hwn : wv = none := by
      rcases wv with _ | ⟨_ | ⟨c, w⟩⟩
      · rfl
      · exact absurd rfl hwfw
      · simp [truthyS] at hw
    subst hwn
    rw [hw] at hid hstable
    have hlt : truthyS lv = true := by
      rcases hid with h | h
      · cases h
      · exact h
    have hst : orNullStr nv = nv ∧ orNullStr pv = pv ∧ orNullStr pbv = pbv := by
      rcases hstable with h | ⟨h1, h2, h3⟩
      · cases h
      · exact ⟨orNullStr_stable _ h1, orNullStr_stable _ h2,
          orNullStr_stable _ h3⟩
    obtain ⟨l, hl⟩ : ∃ l, lv = some l := by
      rcases lv with _ | l
      · cases hlt
      · exact ⟨l, rfl⟩
    subst hl
    have hle : l.isEmpty = false := by simpa [truthyS] using hlt
    have hln : orNullStr (some l) = some l := by simp [orNullStr, hlt]
    rcases cov with _ | c <;>
      simp [saveContactAuth, resolveContactId, truthyS, hle, hln,
        hst.1, hst.2.1, hst.2.2, Db.empty, cuUpsertBig, cuUpsertSmall,
        updateContactById, upsertContactByWid, eraseTimes, List.find?]
  · -- wid truthy: the upsert-by-wid path
    obtain ⟨w, hwv⟩ : ∃ w, wv = some w := by
      rcases wv with _ | w
      · cases hw
      · exact ⟨w, rfl⟩
    subst hwv
    have hwe : w.isEmpty = false := by simpa [truthyS] using hw
    rcases cov with _ | c <;>
      simp [saveContactAuth, resolveContactId, truthyS, hwe, Db.empty,
        cuUpsertBig, cuUpsertSmall, upsertContactByWid, eraseTimes,
        List.find?]

/-- C5 counterexample: with a lid-only observation whose `name` is the empty
string, the second save rewrites the stored name from `''` to NULL through
`info.name || null`, changing a data column, so idempotence as claimed
fails. -/
theorem claim5_counterexample :
    (let d : SaveData :=
       ⟨true, none, some (chars "l"), some [], none, none, [], none⟩
     let s1 := (saveContactAuth (chars "u1") Db.empty d 5).1
     let s2 := (saveContactAuth (chars "u1") s1 d 7).1
     s1.contacts.length = 1 ∧ s2.contacts.length = 1 ∧
       s1.contacts.map (·.name) = [some []] ∧
       s2.contacts.map (·.name) = [none] ∧
       eraseTimes s2 ≠ eraseTimes s1) := by
  decide

/-- C5 witness: the amended idempotence instantiated on a concrete
wid-carrying observation. -/
theorem claim5_witness :
    (let d : SaveData :=
       ⟨true, some (chars "w@c.us"), none, some (chars "N"), none, none,
         [some (chars "w@c.us")], none⟩
     ((saveContactAuth (chars "u1") Db.empty d 5).1.contacts.length = 1) ∧
     ((saveContactAuth (chars "u1") Db.empty d 5).1.contactsUsers.length = 1) ∧
     ((saveContactAuth (chars "u1")
         (saveContactAuth (chars "u1") Db.empty d 5).1 d
         7).1.contacts.length = 1) ∧
     ((saveContactAuth (chars "u1")
         (saveContactAuth (chars "u1") Db.empty d 5).1 d
         7).1.contactsUsers.length = 1) ∧
     eraseTimes (saveContactAuth (chars "u1")
         (saveContactAuth (chars "u1") Db.empty d 5).1 d 7).1 =
       eraseTimes (saveContactAuth (chars "u1") Db.empty d 5).1) := by
  exact claim5_idempotent_second_save (chars "u1")
    ⟨true, some (chars "w@c.us"), none, some (chars "N"), none, none,
      [some (chars "w@c.us")], none⟩ 5 7 (by decide) (Or.inl (by decide))
    (Or.inl (by decide))

/-! ## Claim C6: the tenant auth gate -/

/-- C6: the gate normalizes the session identity to digits and accepts
exactly when some active user's profile has that exact phone or lists it as
an element of its `wa_phones` JSON array (the SQL `LIKE '%"phone"%'` is
shown equivalent to array membership for quote-free stored phones); on
denial every core entry point (`checkNumber`, `syncAllContacts`,
`saveContact`, `saveContactsBatch`) returns its structured not-authorized
result. -/
theorem claim6_auth_gate (tdb : TenantDb) (s : Str)
    (hq : ∀ pr ∈ tdb.profiles, ∀ e ∈ pr.wa_phones, '"' ∉ e) :
    (isAuthenticatedUser tdb s = true ↔
      (s.isEmpty = false ∧ ∃ pr ∈ tdb.profiles,
        (∃ usr ∈ tdb.users, usr.id = pr.user_id ∧ usr.is_active = true) ∧
        (pr.phone = digitsOnly s ∨ digitsOnly s ∈ pr.wa_phones))) ∧
    (∀ me (db : Db) qe pnl cid, isAuthenticatedUser tdb me = false →
      checkNumber tdb me db qe pnl cid = (.unauthorized, ⟨false, false⟩)) ∧
    (∀ me (db : Db) items t, isAuthenticatedUser tdb me = false →
      syncAllContacts tdb me db items t =
        (.failure (chars "Unauthorized"), db)) ∧
    (∀ me (db : Db) d t, isAuthenticatedUser tdb me = false →
      saveContact tdb me db d t = (db, false)) ∧
    (∀ me (db : Db) items ok t, isAuthenticatedUser tdb me = false →
      saveContactsBatch tdb me db items ok t =
        (db, ⟨false, 0, items.length⟩)) := by
  have hdig : ∀ c ∈ digitsOnly s, c.isDigit = true := by
    intro c hc
    exact (List.mem_filter.mp hc).2
  refine ⟨?_, ?_, ?_, ?_, ?_⟩
  · unfold isAuthenticatedUser
    by_cases hs : s.isEmpty = true
    · simp [hs]
    · have hs' : s.isEmpty = false := by simpa using hs
      rw [if_neg hs]
      have hne : (!(authRows tdb (digitsOnly s)).isEmpty) = true ↔
          authRows tdb (digitsOnly s) ≠ [] := by
        cases h : authRows tdb (digitsOnly s) <;> simp [h]
      have key : authRows tdb (digitsOnly s) ≠ [] ↔
          ∃ pr ∈ tdb.profiles,
            (∃ usr ∈ tdb.users, usr.id = pr.user_id ∧ usr.is_active = true) ∧
            (pr.phone = digitsOnly s ∨ digitsOnly s ∈ pr.wa_phones) := by
        rw [authRows_ne_nil]
        constructor
        · rintro ⟨pr, h1, h2, h3 | h3⟩
          · exact ⟨pr, h1, h2, Or.inl h3⟩
          · refine ⟨pr, h1, h2, Or.inr ?_⟩
            have hmm := (likeContains_jsonArr_iff (pr.wa_phones.map some)
              (digitsOnly s) hdig ?_).mp h3
            · obtain ⟨e, he, he2⟩ := List.mem_map.mp hmm
              rwa [show e = digitsOnly s from by injection he2] at he
            · intro e he
              obtain ⟨e2, he2, he3⟩ := List.mem_map.mp he
              rw [show e2 = e from by injection he3] at he2
              exact hq pr h1 e he2
        · rintro ⟨pr, h1, h2, h3 | h3⟩
          · exact ⟨pr, h1, h2, Or.inl h3⟩
          · refine ⟨pr, h1, h2, Or.inr ?_⟩
            refine (likeContains_jsonArr_iff (pr.wa_phones.map some)
              (digitsOnly s) hdig ?_).mpr (List.mem_map.mpr ⟨_, h3, rfl⟩)
            intro e he
            obtain ⟨e2, he2, he3⟩ := List.mem_map.mp he
            rw [show e2 = e from by injection he3] at he2
            exact hq pr h1 e he2
      rw [hne, key]
      exact ⟨fun h => ⟨hs', h⟩, fun h => h.2⟩
  · intro me db qe pnl cid h
    simp [checkNumber, h]
  · intro me db items t h
    simp [syncAllContacts, h]
  · intro me db d t h
    have hn : getDbUser tdb me = none := by
      have hh := getDbUser_isSome_eq tdb me
      rw [h] at hh
      exact Option.not_isSome_iff_eq_none.mp (by simp [hh])
    simp [saveContact, hn]
  · intro me db items ok t h
    have hn : getDbUser tdb me = none := by
      have hh := getDbUser_isSome_eq tdb me
      rw [h] at hh
      exact Option.not_isSome_iff_eq_none.mp (by simp [hh])
    simp [saveContactsBatch, hn]

/-- C6 witness: a profile with phone `5551999999999` authorizes session
identity `"+55 51 99999-9999"` but not `"5551988888888"`, and the denied
`checkNumber` call returns the structured unauthorized result. -/
theorem claim6_witness :
    (let tdb : TenantDb :=
       ⟨[⟨chars "u1", true⟩], [⟨chars "u1", chars "5551999999999", []⟩]⟩
     isAuthenticatedUser tdb (chars "+55 51 99999-9999") = true ∧
     isAuthenticatedUser tdb (chars "5551988888888") = false ∧
     checkNumber tdb (chars "5551988888888") Db.empty none
       (fun _ => ⟨none, none⟩) (chars "x") =
         (.unauthorized, ⟨false, false⟩)) := by
  have h := claim6_auth_gate
    ⟨[⟨chars "u1", true⟩], [⟨chars "u1", chars "5551999999999", []⟩]⟩
    (chars "+55 51 99999-9999") (by decide)
  refine ⟨h.1.mpr ⟨by decide, by decide⟩, by decide, ?_⟩
  exact h.2.1 _ _ _ _ _ (by decide)

end WaContacts
